import Mathlib

/-!
Shallow embedding of the dataset-composition layer of
src/few_shot/datasets.py.

The composite class MultiDataset duck-types its sub-datasets: it only
reads len(dataset), dataset.datasetid_to_class_id (a dict whose keys are
exactly 0 .. len-1 and whose values are the local class ids) and
dataset.num_classes().  A sub-dataset is therefore embedded as the pair
of parallel lists backing datasetid_to_filepath (abstracted to opaque
Nat payloads, field instances) and datasetid_to_class_id (field
classIds), together with the value its num_classes() method returns.
Python functions that fall off the end return None; this is modelled by
an Option, so the buggy MultiDataset.num_classes (line 411: it computes
sum([...]) and returns nothing) yields none, and a sub-dataset whose
num_classes() returns None carries ncRet = none.

Python exceptions (the broken raise at line 380, KeyError from dict
lookups, ZeroDivisionError from a modulo by zero, TypeError from adding
None to an int) are modelled with Except String.
-/

/-- Embedding of a sub-dataset as seen by MultiDataset: the parallel
key-value tables with keys 0 .. len-1, plus the num_classes() return
value (none models a Python None return). -/
structure SubDataset where
  instances : List Nat
  classIds : List Nat
  ncRet : Option Nat
deriving DecidableEq

/-- The default used when List.getD has to produce a sub-dataset; never
reached on in-range dataset ids. -/
def defaultSub : SubDataset := ⟨[], [], none⟩

/-- Python len(dataset) = len(self.df); datasetid_to_class_id has one
entry per dataframe row, so the length is the length of classIds. -/
def SubDataset.length (d : SubDataset) : Nat := d.classIds.length

/-- Embedding of a sub-dataset __getitem__ (lines 61-78, 175-179,
274-278): two dict lookups keyed by item, keys being exactly
0 .. len-1; a missing key is a Python KeyError, modelled as none. -/
def SubDataset.getitem (d : SubDataset) (item : Int) : Option (Nat × Nat) :=
  if 0 ≤ item ∧ item < (d.length : Int) then
    some (d.instances.getD item.toNat 0, d.classIds.getD item.toNat 0)
  else none

/-- First-match lookup in an association list; together with the
prepending in labelMapAux this mirrors Python dict update semantics
(a later update wins). -/
def lookupKey : List (Nat × Nat) → Nat → Option Nat
  | [], _ => none
  | (k, v) :: rest, key => if key = k then some v else lookupKey rest key

/-- Python dict lookup with an int key on a dict whose keys are the
naturals recorded in the list; a negative key is never present. -/
def lookupIntKey (mp : List (Nat × Nat)) (item : Int) : Option Nat :=
  if item < 0 then none else lookupKey mp item.toNat

/-- Entries contributed by one sub-dataset inside
MultiDataset.label_mapping (lines 391-394): the dict built by
dict(zip(keys + index_offset, values + class_id_offset)) from the keys
0 .. len-1 and values classIds of datasetid_to_class_id. -/
def labelBatch (d : SubDataset) (index_offset class_id_offset : Nat) : List (Nat × Nat) :=
  (List.range d.length).map (fun i => (i + index_offset, d.classIds.getD i 0 + class_id_offset))

/-- Loop of MultiDataset.label_mapping (lines 387-399): update the
accumulated dict with the offset batch of the current sub-dataset, then
advance index_offset by len(dataset) and class_id_offset by
dataset.num_classes().  When num_classes() returns None the Python
addition class_id_offset + None raises a TypeError.  New entries are
prepended so that first-match lookup gives dict-update semantics. -/
def labelMapAux : List SubDataset → Nat → Nat → List (Nat × Nat) → Except String (List (Nat × Nat))
  | [], _, _, acc => .ok acc
  | d :: rest, index_offset, class_id_offset, acc =>
    let acc2 := labelBatch d index_offset class_id_offset ++ acc
    match d.ncRet with
    | none => .error "TypeError: unsupported operand types for +: int and NoneType"
    | some n => labelMapAux rest (index_offset + d.length) (class_id_offset + n) acc2

/-- MultiDataset.label_mapping (lines 382-399): both offsets start at 0
and the dict starts empty. -/
def label_mapping (l : List SubDataset) : Except String (List (Nat × Nat)) :=
  labelMapAux l 0 0 []

/-- Embedding of MultiDataset: the stored dataset_list and the
datasetid_to_class_id dict computed once by __init__ (line 364). -/
structure MultiDataset where
  dataset_list : List SubDataset
  datasetid_to_class_id : List (Nat × Nat)
deriving DecidableEq

/-- MultiDataset.__init__ (lines 357-364): stores the list and builds
the label map; the only failure is the TypeError propagated out of
label_mapping.  There is no validation of the sub-dataset class ids. -/
def MultiDataset.init (l : List SubDataset) : Except String MultiDataset :=
  (label_mapping l).map (fun mp => { dataset_list := l, datasetid_to_class_id := mp })

/-- MultiDataset.__len__ (lines 407-408). -/
def MultiDataset.length (m : MultiDataset) : Nat :=
  (m.dataset_list.map SubDataset.length).sum

/-- Total length of a dataset list, sum([len(dataset) for dataset]). -/
def totalLen (l : List SubDataset) : Nat := (l.map SubDataset.length).sum

/-- Sum of num_classes over a dataset list where a None makes the Python
sum([...]) raise a TypeError; acc is the running total of sum(). -/
def sumNc : List SubDataset → Nat → Except String Nat
  | [], acc => .ok acc
  | d :: rest, acc =>
    match d.ncRet with
    | none => .error "TypeError: unsupported operand types for +: int and NoneType"
    | some n => sumNc rest (acc + n)

/-- MultiDataset.num_classes (lines 410-411): the body evaluates
sum([dataset.num_classes() for dataset in self.dataset_list]) but has no
return statement, so on success the Python call returns None; this is
the none in the ok branch. -/
def MultiDataset.num_classes (m : MultiDataset) : Except String (Option Nat) :=
  (sumNc m.dataset_list 0).map (fun _ => none)

/-- Loop of MultiDataset.index_mapping (lines 374-380): walk the
sub-datasets, returning (dataset_id, index) as soon as
index < len(dataset), otherwise subtracting len(dataset); falling off
the loop raises, with the message showing the residual index. -/
def indexMapAux : List SubDataset → Int → Except String (Nat × Int)
  | [], index => .error ("index exceeds total number of instances, index " ++ toString index)
  | d :: rest, index =>
    if index < (d.length : Int) then .ok (0, index)
    else
      match indexMapAux rest (index - (d.length : Int)) with
      | .ok (i, j) => .ok (i + 1, j)
      | .error e => .error e

/-- MultiDataset.index_mapping (lines 366-380). -/
def MultiDataset.index_mapping (m : MultiDataset) (index : Int) : Except String (Nat × Int) :=
  indexMapAux m.dataset_list index

/-- MultiDataset.__getitem__ (lines 401-405): resolve the index, fetch
(instance, true_label) from the resolved sub-dataset, then discard
true_label and return the label from the precomputed global dict. -/
def MultiDataset.getitem (m : MultiDataset) (item : Int) : Except String (Nat × Nat) :=
  match m.index_mapping item with
  | .error e => .error e
  | .ok (dataset_id, index) =>
    match (m.dataset_list.getD dataset_id defaultSub).getitem index with
    | none => .error "KeyError"
    | some (inst, _true_label) =>
      match lookupIntKey m.datasetid_to_class_id item with
      | none => .error "KeyError"
      | some label => .ok (inst, label)

/-- A MultiDataset viewed as a sub-dataset of an outer MultiDataset: the
outer composite reads its datasetid_to_class_id attribute (keys
0 .. len-1 after a successful construction), its length, and its
num_classes() return value, which is None (ncRet = none). -/
def MultiDataset.asSub (m : MultiDataset) : SubDataset :=
  { instances := (List.range m.length).map (fun i =>
      match m.getitem i with
      | .ok p => p.1
      | .error _ => 0)
  , classIds := (List.range m.length).map (fun i => (lookupKey m.datasetid_to_class_id i).getD 0)
  , ncRet := none }

/-- Sum of the lengths of the sub-datasets before position i: the value
of index_offset when label_mapping reaches sub-dataset i, and the
prefix-sum boundary used by the partition invariant. -/
def lenBefore (l : List SubDataset) (i : Nat) : Nat :=
  ((l.map SubDataset.length).take i).sum

/-- Sum of num_classes over the sub-datasets before position i: the
value of class_id_offset when label_mapping reaches sub-dataset i. -/
def ncBefore (l : List SubDataset) (i : Nat) : Nat :=
  ((l.map (fun d => d.ncRet.getD 0)).take i).sum

/-- Total of the reported num_classes over a dataset list. -/
def totalClasses (l : List SubDataset) : Nat :=
  (l.map (fun d => d.ncRet.getD 0)).sum

/-- Sub-dataset i contributes global class id c: some item of
sub-dataset i is mapped by the global label dict to c. -/
def assignsGlobal (l : List SubDataset) (mp : List (Nat × Nat)) (i c : Nat) : Prop :=
  ∃ j, j < (l.getD i defaultSub).length ∧ lookupKey mp (lenBefore l i + j) = some c

/-- DummyDataset (lines 326-353): the three constructor arguments. -/
structure DummyDataset where
  samples_per_class : Nat
  n_classes : Nat
  n_features : Nat
deriving DecidableEq

/-- DummyDataset.__len__ (lines 348-349). -/
def DummyDataset.len (d : DummyDataset) : Nat := d.samples_per_class * d.n_classes

/-- DummyDataset.__getitem__ (lines 351-353): class_id = item %
n_classes (a Python ZeroDivisionError when n_classes = 0), and the
returned array [item] + [class_id]*n_features together with
float(class_id); the float value is the class id, represented
numerically.  No bounds check of any kind is performed on item. -/
def DummyDataset.getitem (d : DummyDataset) (item : Nat) : Except String (List Nat × Nat) :=
  if d.n_classes = 0 then .error "ZeroDivisionError: integer modulo by zero"
  else
    let class_id := item % d.n_classes
    .ok (item :: List.replicate d.n_features class_id, class_id)

/-- Shared class-id assignment logic of OmniglotDataset.__init__ (lines
33-39), MiniImageNet.__init__ (lines 145-151) and Meta.__init__ (lines
247-253): unique_characters = sorted(unique class names), done here
over any linearly ordered name type (the source sorts Python strings
lexicographically). -/
def sortedUnique {α : Type} [LinearOrder α] (names : List α) : List α :=
  List.insertionSort (fun a b => a ≤ b) names.dedup

/-- class_name_to_id: a class name is sent to its position in the
sorted unique list (the dict comprehension at lines 36, 148, 250). -/
def classNameToId {α : Type} [LinearOrder α] (names : List α) (c : α) : Nat :=
  (sortedUnique names).indexOf c

/-- The class_id column (lines 39, 151, 253): every row class name
mapped through class_name_to_id. -/
def assignedClassIds {α : Type} [LinearOrder α] (names : List α) : List Nat :=
  names.map (classNameToId names)

/-- num_classes() of the concrete dataset classes (lines 83-84,
184-185, 283-284): the number of unique class names. -/
def numClassesOfNames {α : Type} [LinearOrder α] (names : List α) : Nat :=
  names.dedup.length

/-- Concrete sub-dataset with length 3 and 2 classes (the spec example
lengths [3, 5, 2] with class counts [2, 3, 1]). -/
def subA : SubDataset := ⟨[10, 11, 12], [0, 1, 0], some 2⟩

/-- Concrete sub-dataset with length 5 and 3 classes. -/
def subB : SubDataset := ⟨[20, 21, 22, 23, 24], [0, 1, 2, 0, 1], some 3⟩

/-- Concrete sub-dataset with length 2 and 1 class. -/
def subC : SubDataset := ⟨[30, 31], [0, 0], some 1⟩

/-- The spec example composition: lengths [3, 5, 2], classes [2, 3, 1]. -/
def exList : List SubDataset := [subA, subB, subC]

/-- The global label dict built for exList. -/
def exMap : List (Nat × Nat) :=
  match label_mapping exList with
  | .ok mp => mp
  | .error _ => []

/-- The MultiDataset over exList. -/
def Mex : MultiDataset := ⟨exList, exMap⟩

/-- A sub-dataset violating the contiguity contract: it reports 2
classes but emits local class ids 0 and 2 (no 1). -/
def subV : SubDataset := ⟨[40, 41], [0, 2], some 2⟩

/-- A well-behaved single-class sub-dataset placed after subV. -/
def subW : SubDataset := ⟨[50], [0], some 1⟩

/-- A dataset list whose first member violates contiguity. -/
def vList : List SubDataset := [subV, subW]

/-- The global label dict silently built for vList. -/
def vMap : List (Nat × Nat) :=
  match label_mapping vList with
  | .ok mp => mp
  | .error _ => []

/-- The MultiDataset built without complaint over vList. -/
def Mv : MultiDataset := ⟨vList, vMap⟩

/-- A DummyDataset constructed with n_classes = 0; its reported length
is 0. -/
def dZero : DummyDataset := ⟨10, 0, 1⟩

/-! Helper lemmas about the association-list lookup and the batches
produced by label_mapping. -/

theorem lookupKey_append_left {l1 l2 : List (Nat × Nat)} {k v : Nat}
    (h : lookupKey l1 k = some v) : lookupKey (l1 ++ l2) k = some v := by
  induction l1 with
  | nil => simp [lookupKey] at h
  | cons p rest ih =>
    obtain ⟨a, b⟩ := p
    simp only [lookupKey, List.cons_append] at h ⊢
    by_cases hk : k = a
    · simpa [hk] using h
    · rw [if_neg hk] at h ⊢
      exact ih h

theorem lookupKey_append_right {l1 l2 : List (Nat × Nat)} {k : Nat}
    (h : lookupKey l1 k = none) : lookupKey (l1 ++ l2) k = lookupKey l2 k := by
  induction l1 with
  | nil => simp
  | cons p rest ih =>
    obtain ⟨a, b⟩ := p
    simp only [lookupKey, List.cons_append] at h ⊢
    by_cases hk : k = a
    · simp [hk] at h
    · rw [if_neg hk] at h ⊢
      exact ih h

theorem lookupKey_offsetRange_small (n io k : Nat) (f : Nat → Nat) (hk : k < io) :
    lookupKey ((List.range n).map (fun i => (i + io, f i))) k = none := by
  induction n with
  | zero => simp [lookupKey]
  | succ n ih =>
    rw [List.range_succ, List.map_append, lookupKey_append_right ih]
    simp only [List.map_cons, List.map_nil, lookupKey]
    rw [if_neg (by omega)]

theorem lookupKey_offsetRange_ge (n io : Nat) (f : Nat → Nat) :
    ∀ k, n ≤ k →
      lookupKey ((List.range n).map (fun i => (i + io, f i))) (k + io) = none := by
  induction n with
  | zero => intro k _; simp [lookupKey]
  | succ n ih =>
    intro k hk
    rw [List.range_succ, List.map_append, lookupKey_append_right (ih k (by omega))]
    simp only [List.map_cons, List.map_nil, lookupKey]
    rw [if_neg (by omega)]

theorem lookupKey_offsetRange_mem (n io : Nat) (f : Nat → Nat) :
    ∀ j, j < n →
      lookupKey ((List.range n).map (fun i => (i + io, f i))) (j + io) = some (f j) := by
  induction n with
  | zero => omega
  | succ n ih =>
    intro j hj
    rw [List.range_succ, List.map_append]
    by_cases hjn : j < n
    · exact lookupKey_append_left (ih j hjn)
    · rw [lookupKey_append_right (lookupKey_offsetRange_ge n io f j (by omega))]
      have hj2 : j = n := by omega
      simp [lookupKey, hj2]

theorem labelBatch_lookup_mem (d : SubDataset) (io co j : Nat) (hj : j < d.length) :
    lookupKey (labelBatch d io co) (j + io) = some (d.classIds.getD j 0 + co) :=
  lookupKey_offsetRange_mem d.length io (fun i => d.classIds.getD i 0 + co) j hj

theorem labelBatch_lookup_small (d : SubDataset) (io co k : Nat) (hk : k < io) :
    lookupKey (labelBatch d io co) k = none :=
  lookupKey_offsetRange_small d.length io k (fun i => d.classIds.getD i 0 + co) hk

/-! Structural lemmas about labelMapAux, the prefix offsets and
indexMapAux. -/

theorem lenBefore_zero (l : List SubDataset) : lenBefore l 0 = 0 := by
  simp [lenBefore]

theorem ncBefore_zero (l : List SubDataset) : ncBefore l 0 = 0 := by
  simp [ncBefore]

theorem lenBefore_cons_succ (d : SubDataset) (rest : List SubDataset) (i : Nat) :
    lenBefore (d :: rest) (i + 1) = d.length + lenBefore rest i := by
  simp [lenBefore]

theorem ncBefore_cons_succ (d : SubDataset) (rest : List SubDataset) (i : Nat) :
    ncBefore (d :: rest) (i + 1) = d.ncRet.getD 0 + ncBefore rest i := by
  simp [ncBefore]

theorem labelMapAux_nil (io co : Nat) (acc : List (Nat × Nat)) :
    labelMapAux [] io co acc = .ok acc := rfl

theorem labelMapAux_cons (d : SubDataset) (rest : List SubDataset) (io co : Nat)
    (acc : List (Nat × Nat)) :
    labelMapAux (d :: rest) io co acc =
      match d.ncRet with
      | none => .error "TypeError: unsupported operand types for +: int and NoneType"
      | some n => labelMapAux rest (io + d.length) (co + n) (labelBatch d io co ++ acc) := rfl

theorem labelMapAux_preserve {l : List SubDataset} :
    ∀ {io co : Nat} {acc mp : List (Nat × Nat)}, labelMapAux l io co acc = .ok mp →
      ∀ {k v : Nat}, k < io → lookupKey acc k = some v → lookupKey mp k = some v := by
  induction l with
  | nil =>
    intro io co acc mp h k v _ hacc
    rw [labelMapAux_nil] at h
    cases h
    exact hacc
  | cons d rest ih =>
    intro io co acc mp h k v hk hacc
    rw [labelMapAux_cons] at h
    cases hnc : d.ncRet with
    | none => rw [hnc] at h; exact absurd h (by simp)
    | some n =>
      rw [hnc] at h
      refine ih h (by omega) ?_
      rw [lookupKey_append_right (labelBatch_lookup_small d io co k hk)]
      exact hacc

theorem labelMapAux_lookup {l : List SubDataset} :
    ∀ {io co : Nat} {acc mp : List (Nat × Nat)}, labelMapAux l io co acc = .ok mp →
      ∀ {i : Nat}, i < l.length → ∀ {j : Nat}, j < (l.getD i defaultSub).length →
        lookupKey mp (io + (lenBefore l i + j)) =
          some ((l.getD i defaultSub).classIds.getD j 0 + (co + ncBefore l i)) := by
  induction l with
  | nil => intro _ _ _ _ _ i hi; simp at hi
  | cons d rest ih =>
    intro io co acc mp h i hi j hj
    rw [labelMapAux_cons] at h
    cases hnc : d.ncRet with
    | none => rw [hnc] at h; exact absurd h (by simp)
    | some n =>
      rw [hnc] at h
      cases i with
      | zero =>
        simp only [List.getD_cons_zero] at hj ⊢
        have hb : lookupKey (labelBatch d io co ++ acc) (j + io) =
            some (d.classIds.getD j 0 + co) :=
          lookupKey_append_left (labelBatch_lookup_mem d io co j hj)
        have hm := labelMapAux_preserve h (show j + io < io + d.length by omega) hb
        rw [lenBefore_zero, ncBefore_zero]
        rw [show io + (0 + j) = j + io from by omega]
        rw [show co + 0 = co from by omega]
        exact hm
      | succ i2 =>
        have hi2 : i2 < rest.length := by simpa using hi
        simp only [List.getD_cons_succ] at hj ⊢
        have hm := ih h hi2 hj
        rw [lenBefore_cons_succ, ncBefore_cons_succ, hnc]
        rw [show io + (d.length + lenBefore rest i2 + j)
              = io + d.length + (lenBefore rest i2 + j) from by omega]
        rw [show co + ((Option.some n).getD 0 + ncBefore rest i2)
              = co + n + ncBefore rest i2 from by simp only [Option.getD_some]; omega]
        exact hm

theorem labelMapAux_total {l : List SubDataset} (hnc : ∀ d, d ∈ l → d.ncRet ≠ none) :
    ∀ (io co : Nat) (acc : List (Nat × Nat)), ∃ mp, labelMapAux l io co acc = .ok mp := by
  induction l with
  | nil => intro io co acc; exact ⟨acc, rfl⟩
  | cons d rest ih =>
    intro io co acc
    cases hd : d.ncRet with
    | none => exact absurd hd (hnc d (List.mem_cons_self d rest))
    | some n =>
      obtain ⟨mp, hmp⟩ :=
        ih (fun d2 hd2 => hnc d2 (List.mem_cons_of_mem d hd2)) (io + d.length) (co + n)
          (labelBatch d io co ++ acc)
      exact ⟨mp, by rw [labelMapAux_cons, hd]; exact hmp⟩

theorem indexMapAux_ok {l : List SubDataset} :
    ∀ {g : Nat}, g < totalLen l →
      ∃ i j : Nat, indexMapAux l (g : Int) = .ok (i, (j : Int)) ∧ i < l.length ∧
        j < (l.getD i defaultSub).length ∧ lenBefore l i + j = g := by
  induction l with
  | nil => intro g hg; simp [totalLen] at hg
  | cons d rest ih =>
    intro g hg
    by_cases hd : g < d.length
    · refine ⟨0, g, ?_, by simp, by simpa using hd, by simp [lenBefore_zero]⟩
      simp only [indexMapAux]
      rw [if_pos (by exact_mod_cast hd)]
    · have hg2 : g - d.length < totalLen rest := by
        simp only [totalLen, List.map_cons, List.sum_cons] at hg ⊢
        omega
      obtain ⟨i, j, hmap, hi, hj, hsum⟩ := ih hg2
      refine ⟨i + 1, j, ?_, by simpa using hi, by simpa using hj, ?_⟩
      · simp only [indexMapAux]
        rw [if_neg (by omega)]
        rw [show (g : Int) - (d.length : Int) = ((g - d.length : Nat) : Int) from by omega]
        rw [hmap]
      · rw [lenBefore_cons_succ]
        omega

theorem totalLen_cons (d : SubDataset) (rest : List SubDataset) :
    totalLen (d :: rest) = d.length + totalLen rest := by
  simp [totalLen]

theorem indexMapAux_ge {l : List SubDataset} :
    ∀ {g : Int}, (totalLen l : Int) ≤ g →
      indexMapAux l g =
        .error ("index exceeds total number of instances, index "
          ++ toString (g - (totalLen l : Int))) := by
  induction l with
  | nil =>
    intro g _
    simp [indexMapAux, totalLen]
  | cons d rest ih =>
    intro g hg
    have h1 : ¬ (g < (d.length : Int)) := by
      rw [totalLen_cons] at hg
      push_cast at hg
      omega
    have hrest : (totalLen rest : Int) ≤ g - (d.length : Int) := by
      rw [totalLen_cons] at hg
      push_cast at hg ⊢
      omega
    have harith : g - (d.length : Int) - (totalLen rest : Int) = g - (totalLen (d :: rest) : Int) := by
      rw [totalLen_cons]
      push_cast
      ring
    simp only [indexMapAux, if_neg h1]
    rw [ih hrest]
    simp [harith]

theorem indexMapAux_neg {l : List SubDataset} (hne : l ≠ []) {g : Int} (hg : g < 0) :
    indexMapAux l g = .ok (0, g) := by
  cases l with
  | nil => exact absurd rfl hne
  | cons d rest =>
    simp only [indexMapAux]
    rw [if_pos (by omega)]

theorem take_sum_mono {ns : List Nat} {i k : Nat} (h : i ≤ k) :
    (ns.take i).sum ≤ (ns.take k).sum := by
  have h3 : ((ns.take k).take i) = ns.take i := by
    rw [List.take_take, Nat.min_eq_left h]
  calc (ns.take i).sum = ((ns.take k).take i).sum := by rw [h3]
    _ ≤ ((ns.take k).take i).sum + ((ns.take k).drop i).sum := Nat.le_add_right _ _
    _ = (ns.take k).sum := by rw [← List.sum_append, List.take_append_drop]

theorem ncBefore_mono (l : List SubDataset) {i k : Nat} (h : i ≤ k) :
    ncBefore l i ≤ ncBefore l k :=
  take_sum_mono h

theorem ncBefore_succ_getD (l : List SubDataset) {i : Nat} (hi : i < l.length) :
    ncBefore l (i + 1) = ncBefore l i + (l.getD i defaultSub).ncRet.getD 0 := by
  unfold ncBefore
  rw [List.sum_take_succ _ i (by simpa using hi)]
  congr 1
  rw [List.getElem_map, List.getD_eq_getElem _ _ hi]

theorem ncBefore_length (l : List SubDataset) : ncBefore l l.length = totalClasses l := by
  unfold ncBefore totalClasses
  rw [List.take_of_length_le (by simp)]

theorem ncBefore_le_total (l : List SubDataset) {i : Nat} (hi : i ≤ l.length) :
    ncBefore l i ≤ totalClasses l := by
  rw [← ncBefore_length]
  exact ncBefore_mono l hi

theorem sum_interval_exists {ns : List Nat} :
    ∀ {c : Nat}, c < ns.sum →
      ∃ i, i < ns.length ∧ (ns.take i).sum ≤ c ∧ c < (ns.take i).sum + ns.getD i 0 := by
  induction ns with
  | nil => intro c hc; simp at hc
  | cons n rest ih =>
    intro c hc
    by_cases h : c < n
    · exact ⟨0, by simp, by simp, by simpa using h⟩
    · simp only [List.sum_cons] at hc
      obtain ⟨i, hi, h1, h2⟩ := ih (show c - n < rest.sum by omega)
      refine ⟨i + 1, by simpa using hi, ?_, ?_⟩
      · simp only [List.take_succ_cons, List.sum_cons]
        omega
      · simp only [List.take_succ_cons, List.sum_cons, List.getD_cons_succ]
        omega

theorem map_getD_nc (l : List SubDataset) {i : Nat} (hi : i < l.length) :
    (l.map (fun d => d.ncRet.getD 0)).getD i 0 = (l.getD i defaultSub).ncRet.getD 0 := by
  rw [List.getD_eq_getElem _ _ (by simpa using hi), List.getElem_map,
    List.getD_eq_getElem _ _ hi]

/-- C1: for every MultiDataset and every global index in
[0, total_length), index_mapping returns exactly one pair (it is a
function, so the returned pair is unique) (sub_id, local_index) with
0 <= local_index < length(sub_id), and the sum of the lengths of the
sub-datasets before sub_id plus local_index equals the global index;
for lengths [3, 5, 2] the spec boundary examples hold and index 10
fails with the out-of-range error. -/
theorem multi_index_mapping_partition :
    (∀ (m : MultiDataset) (g : Nat), g < m.length →
      ∃ did j : Nat, m.index_mapping (g : Int) = .ok (did, (j : Int)) ∧
        did < m.dataset_list.length ∧
        j < (m.dataset_list.getD did defaultSub).length ∧
        lenBefore m.dataset_list did + j = g)
    ∧ Mex.index_mapping 0 = .ok (0, 0)
    ∧ Mex.index_mapping 2 = .ok (0, 2)
    ∧ Mex.index_mapping 3 = .ok (1, 0)
    ∧ Mex.index_mapping 7 = .ok (1, 4)
    ∧ Mex.index_mapping 8 = .ok (2, 0)
    ∧ Mex.index_mapping 9 = .ok (2, 1)
    ∧ (∃ e, Mex.index_mapping 10 = .error e) := by
  refine ⟨?_, rfl, rfl, rfl, rfl, rfl, rfl, ⟨_, rfl⟩⟩
  intro m g hg
  obtain ⟨i, j, hmap, hi, hj, hsum⟩ := @indexMapAux_ok m.dataset_list g hg
  exact ⟨i, j, hmap, hi, hj, hsum⟩

/-- Witness for C1 at the concrete composite Mex and global index 4. -/
theorem multi_index_mapping_partition_witness :
    ∃ did j : Nat, Mex.index_mapping ((4 : Nat) : Int) = .ok (did, (j : Int)) ∧
      did < Mex.dataset_list.length ∧
      j < (Mex.dataset_list.getD did defaultSub).length ∧
      lenBefore Mex.dataset_list did + j = 4 :=
  multi_index_mapping_partition.1 Mex 4 (by decide)

/-- C2: the global label map built at construction contains, for each
sub-dataset i processed in order (index offset lenBefore, class id
offset ncBefore, both starting at 0), the entry
(local_index + index_offset) maps-to (local_class_id + class_id_offset)
for every local index of sub-dataset i; with class counts [2, 3, 1],
an item of sub-dataset 1 with local class id 0 gets global class id 2
(key 3), local class id 2 gets 4 (key 5), and an item of sub-dataset 2
with local class id 0 gets 5 (key 8). -/
theorem multi_label_mapping_offsets :
    (∀ (l : List SubDataset) (mp : List (Nat × Nat)), label_mapping l = .ok mp →
      ∀ i, i < l.length → ∀ j, j < (l.getD i defaultSub).length →
        lookupKey mp (lenBefore l i + j) =
          some ((l.getD i defaultSub).classIds.getD j 0 + ncBefore l i))
    ∧ lookupKey exMap 3 = some 2
    ∧ lookupKey exMap 5 = some 4
    ∧ lookupKey exMap 8 = some 5 := by
  refine ⟨?_, rfl, rfl, rfl⟩
  intro l mp hok i hi j hj
  have h := @labelMapAux_lookup l 0 0 [] mp hok i hi j hj
  simpa using h

/-- Witness for C2: the general clause applied to the concrete list
exList at sub-dataset 1, local index 2 (the item with local class id
2), giving global key 3 + 2 = 5 and global class id 2 + 2 = 4. -/
theorem multi_label_mapping_offsets_witness :
    lookupKey exMap (lenBefore exList 1 + 2) =
      some ((exList.getD 1 defaultSub).classIds.getD 2 0 + ncBefore exList 1) :=
  multi_label_mapping_offsets.1 exList exMap rfl 1 (by decide) 2 (by decide)

/-- C5 (source bug): MultiDataset.num_classes computes the sum of the
sub-dataset num_classes values (here 2 + 3 + 1 = 6, as sumNc shows) but
has no return statement, so the call returns None rather than the sum. -/
theorem multi_num_classes_returns_none :
    Mex.num_classes = .ok none ∧ sumNc Mex.dataset_list 0 = .ok 6 :=
  ⟨rfl, rfl⟩

/-- C6 counterexample: at the negative index -1 the mapper does not
fail at all; the loop test index < len(dataset) is satisfied by any
negative index, so (0, -1) is returned. -/
theorem index_mapping_negative_no_error :
    Mex.index_mapping (-1) = .ok (0, -1) ∧ ∀ e, Mex.index_mapping (-1) ≠ .error e := by
  refine ⟨rfl, ?_⟩
  intro e h
  rw [(rfl : Mex.index_mapping (-1) = .ok (0, -1))] at h
  exact Except.noConfusion h

/-- C6 amended: for index at or above total_length, index_mapping
fails, and the error names the residual index (index - total_length),
not the offending index or total_length; a negative index is passed
through as (0, index) with no error from index_mapping (when there is
at least one sub-dataset), and the subsequent failure of __getitem__ on
a negative index is a KeyError from a dict lookup, not the OutOfRange
raise. -/
theorem index_mapping_out_of_range_amended (m : MultiDataset) (g : Int) :
    ((m.length : Int) ≤ g →
      m.index_mapping g =
        .error ("index exceeds total number of instances, index "
          ++ toString (g - (m.length : Int))))
    ∧ (g < 0 → m.dataset_list ≠ [] → m.index_mapping g = .ok (0, g))
    ∧ (g < 0 → ∃ e, m.getitem g = .error e) := by
  refine ⟨?_, ?_, ?_⟩
  · intro hg
    exact @indexMapAux_ge m.dataset_list g hg
  · intro hg hne
    exact indexMapAux_neg hne hg
  · intro hg
    obtain ⟨l, mp⟩ := m
    cases l with
    | nil => exact ⟨_, rfl⟩
    | cons d rest =>
      have h1 : MultiDataset.index_mapping ⟨d :: rest, mp⟩ g = .ok (0, g) :=
        indexMapAux_neg (by simp) hg
      refine ⟨"KeyError", ?_⟩
      unfold MultiDataset.getitem
      rw [h1]
      have h2 : d.getitem g = none := by
        unfold SubDataset.getitem
        rw [if_neg (by omega)]
      simp [h2]

/-- Witness for C6 amended at Mex: index 12 is two past the total
length 10 and produces the residual-index error message; index -1 is
mapped to (0, -1) and retrieval at -1 fails. -/
theorem index_mapping_out_of_range_amended_witness :
    (Mex.index_mapping 12 =
      .error ("index exceeds total number of instances, index "
        ++ toString ((12 : Int) - (Mex.length : Int))))
    ∧ Mex.index_mapping (-1) = .ok (0, -1)
    ∧ (∃ e, Mex.getitem (-1) = .error e) :=
  ⟨(index_mapping_out_of_range_amended Mex 12).1 (by decide),
   (index_mapping_out_of_range_amended Mex (-1)).2.1 (by decide) (by decide),
   (index_mapping_out_of_range_amended Mex (-1)).2.2 (by decide)⟩

/-- C7 counterexample: subV reports num_classes = 2 but emits local
class ids 0 and 2 (1 is never emitted), violating the contiguity
contract; construction nevertheless succeeds with no ConsistencyError,
and the resulting global label map is corrupted: the subV item at
global key 1 and the subW item at global key 2 both receive global
class id 2. -/
theorem multi_init_no_validation_counterexample :
    MultiDataset.init vList = .ok Mv
    ∧ (2 ∈ subV.classIds ∧ 1 ∉ subV.classIds ∧ subV.ncRet = some 2)
    ∧ lookupKey vMap 1 = some 2
    ∧ lookupKey vMap 2 = some 2 :=
  ⟨rfl, ⟨by decide, by decide, rfl⟩, rfl, rfl⟩

/-- C7 amended: construction never validates the contiguity contract.
MultiDataset.__init__ succeeds for every dataset list whose sub-datasets
return an integer from num_classes() (its only failure mode is the
TypeError when a num_classes() returns None), regardless of what local
class ids the sub-datasets emit; a violating sub-dataset silently
produces a corrupted global label map instead of a ConsistencyError. -/
theorem multi_init_never_validates (l : List SubDataset)
    (hnc : ∀ d, d ∈ l → d.ncRet ≠ none) :
    ∃ m, MultiDataset.init l = .ok m := by
  obtain ⟨mp, hmp⟩ := labelMapAux_total hnc 0 0 []
  exact ⟨⟨l, mp⟩, by unfold MultiDataset.init label_mapping; rw [hmp]; rfl⟩

/-- Witness for C7 amended: the violating list vList still constructs. -/
theorem multi_init_never_validates_witness :
    ∃ m, MultiDataset.init vList = .ok m :=
  multi_init_never_validates vList (by decide)

/-- C8 (source bug): a MultiDataset exposes len, __getitem__ and a
datasetid_to_class_id dict like a plain sub-dataset, but its
num_classes() returns None (the missing return of lines 410-411), so
using it as a sub-dataset of an outer MultiDataset makes the outer
construction fail with a TypeError at class_id_offset +
dataset.num_classes(), unlike an ordinary sub-dataset such as subA. -/
theorem nested_multi_construction_fails :
    MultiDataset.init exList = .ok Mex
    ∧ Mex.asSub.ncRet = none
    ∧ MultiDataset.init [Mex.asSub] =
        .error "TypeError: unsupported operand types for +: int and NoneType"
    ∧ (∃ m, MultiDataset.init [subA] = .ok m) :=
  ⟨rfl, rfl, rfl, ⟨_, rfl⟩⟩

/-- C10 counterexample: a DummyDataset built with n_classes = 0 has
reported length 0, and retrieval of item 0 (which is >= the length, so
inside the range the claim covers) does not return the described pair
but raises a ZeroDivisionError from item % n_classes. -/
theorem dummy_getitem_zero_classes_fails :
    dZero.len = 0
    ∧ dZero.getitem 0 = .error "ZeroDivisionError: integer modulo by zero"
    ∧ ∀ p, dZero.getitem 0 ≠ .ok p := by
  refine ⟨rfl, rfl, ?_⟩
  intro p h
  rw [(rfl : dZero.getitem 0 = .error "ZeroDivisionError: integer modulo by zero")] at h
  exact Except.noConfusion h

/-- C10 amended: provided n_classes is nonzero, __getitem__ performs no
bounds check: for every non-negative item, including every item at or
above the reported length samples_per_class * n_classes, it returns
without error the pair of the array [item] followed by n_features
copies of item % n_classes and the (float) class id item % n_classes. -/
theorem dummy_getitem_no_bounds_check (d : DummyDataset) (item : Nat)
    (h : d.n_classes ≠ 0) :
    d.getitem item =
      .ok (item :: List.replicate d.n_features (item % d.n_classes), item % d.n_classes) := by
  unfold DummyDataset.getitem
  rw [if_neg h]

/-- Witness for C10 amended: a DummyDataset with 3 classes, 2 samples
per class and 2 extra features, read at item 100, far beyond its
reported length 6. -/
theorem dummy_getitem_no_bounds_check_witness :
    DummyDataset.len ⟨2, 3, 2⟩ ≤ 100
    ∧ DummyDataset.getitem ⟨2, 3, 2⟩ 100 =
        .ok (100 :: List.replicate 2 (100 % 3), 100 % 3) :=
  ⟨by decide, dummy_getitem_no_bounds_check ⟨2, 3, 2⟩ 100 (by decide)⟩

/-- C3: for every MultiDataset whose label map was built by
label_mapping and every valid global index, __getitem__ returns the
pair made of the instance produced by the resolved sub-dataset at the
resolved local index together with the precomputed global label for
that global index; the local label loc returned by the sub-dataset is
discarded (the output label is the global map value, whatever loc is,
and the instance is the only part of the sub-dataset result kept). -/
theorem multi_getitem_uses_global_label (l : List SubDataset) (mp : List (Nat × Nat))
    (hok : label_mapping l = .ok mp) (g : Nat) (hg : g < totalLen l) :
    ∃ did j inst loc glab,
      MultiDataset.index_mapping ⟨l, mp⟩ (g : Int) = .ok (did, (j : Int)) ∧
      SubDataset.getitem (l.getD did defaultSub) (j : Int) = some (inst, loc) ∧
      lookupKey mp g = some glab ∧
      MultiDataset.getitem ⟨l, mp⟩ (g : Int) = .ok (inst, glab) := by
  obtain ⟨did, j, hmap, hdid, hj, hsum⟩ := @indexMapAux_ok l g hg
  have hget : SubDataset.getitem (l.getD did defaultSub) (j : Int) =
      some ((l.getD did defaultSub).instances.getD j 0,
            (l.getD did defaultSub).classIds.getD j 0) := by
    unfold SubDataset.getitem
    rw [if_pos ⟨by omega, by exact_mod_cast hj⟩]
    simp
  have hlook : lookupKey mp g =
      some ((l.getD did defaultSub).classIds.getD j 0 + ncBefore l did) := by
    have h := @labelMapAux_lookup l 0 0 [] mp hok did hdid j hj
    simpa [hsum] using h
  refine ⟨did, j, _, _, _, hmap, hget, hlook, ?_⟩
  have hlk2 : lookupIntKey mp ((g : Nat) : Int) = lookupKey mp g := by
    unfold lookupIntKey
    rw [if_neg (by omega)]
    simp
  unfold MultiDataset.getitem
  simp only [MultiDataset.index_mapping] at hmap ⊢
  rw [hmap]
  simp [hget, hlk2, hlook, -List.getD_eq_getElem?_getD]

/-- Witness for C3 at the concrete composite Mex and global index 3
(first item of the second sub-dataset). -/
theorem multi_getitem_uses_global_label_witness :
    ∃ did j inst loc glab,
      MultiDataset.index_mapping ⟨exList, exMap⟩ ((3 : Nat) : Int) = .ok (did, (j : Int)) ∧
      SubDataset.getitem (exList.getD did defaultSub) (j : Int) = some (inst, loc) ∧
      lookupKey exMap 3 = some glab ∧
      MultiDataset.getitem ⟨exList, exMap⟩ ((3 : Nat) : Int) = .ok (inst, glab) :=
  multi_getitem_uses_global_label exList exMap rfl 3 (by decide)

/-- C4: when every sub-dataset emits local class ids exactly covering
[0, num_classes_i), the global class ids assigned to sub-dataset i are
exactly the contiguous range [ncBefore i, ncBefore i + num_classes_i)
(the injective shift of the local range by the class offset), the
ranges of distinct sub-datasets are disjoint, and together they cover
exactly [0, total_classes). -/
theorem multi_label_ranges_disjoint_cover (l : List SubDataset) (mp : List (Nat × Nat))
    (hok : label_mapping l = .ok mp)
    (hcontig : ∀ d, d ∈ l → ∀ x, x ∈ d.classIds ↔ x < d.ncRet.getD 0) :
    (∀ i, i < l.length → ∀ c, assignsGlobal l mp i c ↔
      ncBefore l i ≤ c ∧ c < ncBefore l i + (l.getD i defaultSub).ncRet.getD 0)
    ∧ (∀ i k, i < l.length → k < l.length → i ≠ k →
      ∀ c, ¬ (assignsGlobal l mp i c ∧ assignsGlobal l mp k c))
    ∧ (∀ c, (∃ i, i < l.length ∧ assignsGlobal l mp i c) ↔ c < totalClasses l) := by
  have hchar : ∀ i, i < l.length → ∀ c, assignsGlobal l mp i c ↔
      ncBefore l i ≤ c ∧ c < ncBefore l i + (l.getD i defaultSub).ncRet.getD 0 := by
    intro i hi c
    have hmem : l.getD i defaultSub ∈ l := by
      rw [List.getD_eq_getElem _ _ hi]
      exact List.getElem_mem _
    constructor
    · rintro ⟨j, hj, hlk⟩
      have h := @labelMapAux_lookup l 0 0 [] mp hok i hi j hj
      simp only [Nat.zero_add] at h
      rw [hlk] at h
      have hc : c = (l.getD i defaultSub).classIds.getD j 0 + ncBefore l i := by
        exact Option.some.inj h
      have hx : (l.getD i defaultSub).classIds.getD j 0 ∈ (l.getD i defaultSub).classIds := by
        rw [List.getD_eq_getElem _ _ (show j < (l.getD i defaultSub).classIds.length from hj)]
        exact List.getElem_mem _
      have hlt := (hcontig _ hmem _).mp hx
      omega
    · rintro ⟨h1, h2⟩
      have hx : (c - ncBefore l i) ∈ (l.getD i defaultSub).classIds :=
        (hcontig _ hmem _).mpr (by omega)
      obtain ⟨j, hj, hcj⟩ := List.getElem_of_mem hx
      refine ⟨j, hj, ?_⟩
      have h := @labelMapAux_lookup l 0 0 [] mp hok i hi j
        (show j < (l.getD i defaultSub).length from hj)
      simp only [Nat.zero_add] at h
      rw [h, List.getD_eq_getElem _ _ (show j < (l.getD i defaultSub).classIds.length from hj),
        hcj]
      congr 1
      omega
  have hdisj_lt : ∀ i k, i < l.length → k < l.length → i < k →
      ∀ c, assignsGlobal l mp i c → assignsGlobal l mp k c → False := by
    intro i k hi hk hik c hci hck
    have r1 := (hchar i hi c).mp hci
    have r2 := (hchar k hk c).mp hck
    have hmono : ncBefore l (i + 1) ≤ ncBefore l k := ncBefore_mono l hik
    rw [ncBefore_succ_getD l hi] at hmono
    omega
  refine ⟨hchar, ?_, ?_⟩
  · intro i k hi hk hne c ⟨hci, hck⟩
    rcases Nat.lt_or_ge i k with h | h
    · exact hdisj_lt i k hi hk h c hci hck
    · exact hdisj_lt k i hk hi (by omega) c hck hci
  · intro c
    constructor
    · rintro ⟨i, hi, hc⟩
      have r := (hchar i hi c).mp hc
      have hmono : ncBefore l (i + 1) ≤ totalClasses l := ncBefore_le_total l (by omega)
      rw [ncBefore_succ_getD l hi] at hmono
      omega
    · intro hc
      have hc2 : c < (l.map (fun d => d.ncRet.getD 0)).sum := hc
      obtain ⟨i, hi, h1, h2⟩ := sum_interval_exists hc2
      have hi2 : i < l.length := by simpa using hi
      rw [map_getD_nc l hi2] at h2
      exact ⟨i, hi2, (hchar i hi2 c).mpr ⟨h1, h2⟩⟩

/-- Witness for C4 at the concrete composite over exList, whose three
sub-datasets emit contiguous class ids for their counts 2, 3 and 1. -/
theorem multi_label_ranges_disjoint_cover_witness :
    (∀ i, i < exList.length → ∀ c, assignsGlobal exList exMap i c ↔
      ncBefore exList i ≤ c ∧ c < ncBefore exList i + (exList.getD i defaultSub).ncRet.getD 0)
    ∧ (∀ i k, i < exList.length → k < exList.length → i ≠ k →
      ∀ c, ¬ (assignsGlobal exList exMap i c ∧ assignsGlobal exList exMap k c))
    ∧ (∀ c, (∃ i, i < exList.length ∧ assignsGlobal exList exMap i c) ↔
        c < totalClasses exList) :=
  multi_label_ranges_disjoint_cover exList exMap rfl (by
    intro d hd x
    simp only [exList, List.mem_cons, List.not_mem_nil, or_false] at hd
    rcases hd with rfl | rfl | rfl
    · simp only [subA, List.mem_cons, List.not_mem_nil, or_false, Option.getD_some]
      omega
    · simp only [subB, List.mem_cons, List.not_mem_nil, or_false, Option.getD_some]
      omega
    · simp only [subC, List.mem_cons, List.not_mem_nil, or_false, Option.getD_some]
      omega)

/-- C9: in the concrete dataset classes (OmniglotDataset, MiniImageNet,
Meta) the class ids are the positions of each row class name in the
sorted list of unique class names, and num_classes() is the count of
unique class names; consequently the set of assigned class ids is
exactly the contiguous zero-based range [0, num_classes()), which is
the contiguity contract the composite label remapper relies on. -/
theorem class_id_assignment_contiguous {α : Type} [LinearOrder α] (names : List α) (k : Nat) :
    (k ∈ assignedClassIds names ↔ k < numClassesOfNames names)
    ∧ (sortedUnique names).length = numClassesOfNames names := by
  have hperm : (sortedUnique names).Perm names.dedup := List.perm_insertionSort _ _
  have hnd : (sortedUnique names).Nodup := hperm.nodup_iff.mpr (List.nodup_dedup names)
  have hmem : ∀ a : α, a ∈ sortedUnique names ↔ a ∈ names := fun a =>
    (hperm.mem_iff).trans List.mem_dedup
  have hlen : (sortedUnique names).length = names.dedup.length := hperm.length_eq
  constructor
  · constructor
    · intro hk
      obtain ⟨c, hc, hck⟩ := List.mem_map.mp hk
      rw [← hck]
      unfold classNameToId numClassesOfNames
      rw [← hlen]
      exact List.indexOf_lt_length.mpr ((hmem c).mpr hc)
    · intro hk
      have hk2 : k < (sortedUnique names).length := by
        rw [hlen]
        exact hk
      refine List.mem_map.mpr ⟨(sortedUnique names).get ⟨k, hk2⟩, ?_, ?_⟩
      · exact (hmem _).mp (List.get_mem _ _ _)
      · exact List.get_indexOf hnd ⟨k, hk2⟩
  · exact hlen

/-- Witness for C9 at a concrete list of four names with three distinct
values, checked at class id 2. -/
theorem class_id_assignment_contiguous_witness :
    ((2 ∈ assignedClassIds [5, 3, 3, 8]) ↔ 2 < numClassesOfNames [5, 3, 3, 8])
    ∧ (sortedUnique [5, 3, 3, 8]).length = numClassesOfNames [5, 3, 3, 8] :=
  class_id_assignment_contiguous [5, 3, 3, 8] 2
